import Mathlib

/-!
Verification of the session-transcript unification pipeline of the
experience-distiller repository (scripts/parse_claude.py and
scripts/parse_opencode.py), as a shallow embedding in Lean 4.

Conventions of the embedding:
* Python strings are Lean `String`s (one `Char` per Unicode code point,
  matching Python `len`/slicing on code points).
* JSON values are the inductive `JVal`; JSON numbers are modelled as
  integers (no claim depends on fractional numeric payloads).
* Python `datetime` values are absolute microsecond counts paired with an
  awareness flag (`PyDt`); comparing a naive and an aware datetime raises
  `TypeError` in Python, modelled by `Except`-style propagation where such
  a comparison is reachable.
* File-system access is abstracted as a lookup function from path to the
  parsed content of the file at that path.
-/

namespace Distiller

/-- JSON values (numbers modelled as integers; floating point payloads are
out of scope for the verified claims). -/
inductive JVal where
  | null : JVal
  | bool (b : Bool) : JVal
  | int (n : Int) : JVal
  | str (s : String) : JVal
  | arr (items : List JVal) : JVal
  | obj (fields : List (String × JVal)) : JVal

/-- JSON string escaping used by `json.dumps` (ensure_ascii=False): the
backslash, the double quote and the common control characters are escaped;
other characters pass through verbatim. -/
def jsonEscapeChar (c : Char) : List Char :=
  if c = '\\' then ['\\', '\\']
  else if c = '"' then ['\\', '"']
  else if c = '\n' then ['\\', 'n']
  else if c = '\t' then ['\\', 't']
  else if c = '\r' then ['\\', 'r']
  else [c]

def jsonQuote (s : String) : String :=
  ⟨'"' :: (s.data.flatMap jsonEscapeChar) ++ ['"']⟩

mutual
/-- `json.dumps(v, ensure_ascii=False)` with the default separators
`", "` and `": "`. -/
def jsonDumps : JVal → String
  | .null => "null"
  | .bool true => "true"
  | .bool false => "false"
  | .int n => toString n
  | .str s => jsonQuote s
  | .arr items => "[" ++ jsonDumpsList items ++ "]"
  | .obj fields => "\x7b" ++ jsonDumpsFields fields ++ "\x7d"

def jsonDumpsList : List JVal → String
  | [] => ""
  | [v] => jsonDumps v
  | v :: rest => jsonDumps v ++ ", " ++ jsonDumpsList rest

def jsonDumpsFields : List (String × JVal) → String
  | [] => ""
  | [(k, v)] => jsonQuote k ++ ": " ++ jsonDumps v
  | (k, v) :: rest => jsonQuote k ++ ": " ++ jsonDumps v ++ ", " ++ jsonDumpsFields rest
end

/-- The single-quote character, used by Python `repr` of strings. -/
def squote : Char := Char.ofNat 39

/-- Escaping inside Python `repr` of a string for a chosen quote character
(backslash, the quote character itself and common control characters;
other characters pass through verbatim). -/
def pyReprEscapeChar (q : Char) (c : Char) : List Char :=
  if c = '\\' then ['\\', '\\']
  else if c = q then ['\\', q]
  else if c = '\n' then ['\\', 'n']
  else if c = '\t' then ['\\', 't']
  else if c = '\r' then ['\\', 'r']
  else [c]

/-- Python `repr` of a string: single-quoted, except that a string that
contains a single quote and no double quote is double-quoted. -/
def pyReprStr (s : String) : String :=
  let q := if s.data.contains squote ∧ ¬ s.data.contains '"' then '"' else squote
  ⟨q :: (s.data.flatMap (pyReprEscapeChar q)) ++ [q]⟩

mutual
/-- Python `repr` applied to a JSON-shaped value. -/
def pyRepr : JVal → String
  | .null => "None"
  | .bool true => "True"
  | .bool false => "False"
  | .int n => toString n
  | .str s => pyReprStr s
  | .arr items => "[" ++ pyReprList items ++ "]"
  | .obj fields => "\x7b" ++ pyReprFields fields ++ "\x7d"

def pyReprList : List JVal → String
  | [] => ""
  | [v] => pyRepr v
  | v :: rest => pyRepr v ++ ", " ++ pyReprList rest

def pyReprFields : List (String × JVal) → String
  | [] => ""
  | [(k, v)] => pyReprStr k ++ ": " ++ pyRepr v
  | (k, v) :: rest => pyReprStr k ++ ": " ++ pyRepr v ++ ", " ++ pyReprFields rest
end

/-- Python `str` applied to a JSON-shaped value: identical to `repr`
except that a top-level string is returned verbatim. -/
def pyStr : JVal → String
  | .str s => s
  | v => pyRepr v

/-- `truncate(s, max_len=200)` of both adapters, restricted to the string
case (`s[: max_len - 3] + "..."` when longer than `max_len`). -/
def truncate (s : String) (maxLen : Nat := 200) : String :=
  if maxLen < s.length then ⟨s.data.take (maxLen - 3)⟩ ++ "..." else s

/-- `truncate` applied to an arbitrary value: a non-string value is first
JSON-serialized (`None` becomes the empty string). -/
def truncateVal (v : JVal) (maxLen : Nat := 200) : String :=
  truncate (match v with
    | .str s => s
    | .null => ""
    | v => jsonDumps v) maxLen

/-- Python `s.rstrip("/")`: drop every trailing slash. -/
def rstripSlash (s : String) : String :=
  ⟨(s.data.reverse.dropWhile (· = '/')).reverse⟩

/-- Python `a or b` for strings (empty strings are falsy). -/
def pyOr (a b : String) : String :=
  if a = "" then b else a

/-- Python `a or b` where `a` is an optional string (`None` and the empty
string are both falsy). -/
def pyOrOpt (a : Option String) (b : String) : String :=
  match a with
  | some s => if s = "" then b else s
  | none => b

/-! ## Calendar arithmetic

Days-from-civil-date and its inverse, as used to model `datetime`
construction, `timestamp()` and `strftime`. -/

def isLeap (y : Nat) : Bool :=
  (y % 4 = 0 ∧ y % 100 ≠ 0) ∨ y % 400 = 0

/-- Number of days in month `m` of year `y` (as enforced by the `datetime`
constructor). -/
def daysInMonth (y m : Nat) : Nat :=
  if m = 2 then (if isLeap y then 29 else 28)
  else if m = 4 ∨ m = 6 ∨ m = 9 ∨ m = 11 then 30
  else 31

/-- Days from 1970-01-01 to the civil date `y-m-d` (proleptic Gregorian). -/
def epochDays (y m d : Nat) : Int :=
  let yy : Int := (y : Int) - (if m ≤ 2 then 1 else 0)
  let era : Int := yy.fdiv 400
  let yoe : Int := yy - era * 400
  let mp : Int := ((m : Int) + 9) % 12
  let doy : Int := (153 * mp + 2).fdiv 5 + (d : Int) - 1
  let doe : Int := yoe * 365 + yoe.fdiv 4 - yoe.fdiv 100 + doy
  era * 146097 + doe - 719468

/-- Civil date from days since 1970-01-01 (inverse of `epochDays`). -/
def civilFromDays (z0 : Int) : Int × Int × Int :=
  let z := z0 + 719468
  let era := z.fdiv 146097
  let doe := z - era * 146097
  let yoe := (doe - doe.fdiv 1460 + doe.fdiv 36524 - doe.fdiv 146096).fdiv 365
  let y := yoe + era * 400
  let doy := doe - (365 * yoe + yoe.fdiv 4 - yoe.fdiv 100)
  let mp := (5 * doy + 2).fdiv 153
  let d := doy - (153 * mp + 2).fdiv 5 + 1
  let m := if mp < 10 then mp + 3 else mp - 9
  (if m ≤ 2 then y + 1 else y, m, d)

/-- Microseconds from the epoch to `y-m-d h:mi:s` UTC. -/
def epochMicros (y m d h mi s : Nat) : Int :=
  (epochDays y m d * 86400 + (h : Int) * 3600 + (mi : Int) * 60 + (s : Int)) * 1000000

/-- Two-digit zero-padded rendering (`%m`, `%d`, `%H`, `%M`, `%S`). -/
def pad2 (n : Int) : List Char :=
  [Nat.digitChar (n.toNat / 10 % 10), Nat.digitChar (n.toNat % 10)]

/-- Four-digit zero-padded rendering (`%Y`). -/
def pad4 (n : Int) : List Char :=
  [Nat.digitChar (n.toNat / 1000 % 10), Nat.digitChar (n.toNat / 100 % 10),
   Nat.digitChar (n.toNat / 10 % 10), Nat.digitChar (n.toNat % 10)]

/-- `strftime("%Y-%m-%dT%H:%M:%SZ")` on the datetime holding the given
number of seconds since the epoch. -/
def isoRender (secs : Int) : String :=
  let days := secs.fdiv 86400
  let rem := (secs - days * 86400).toNat
  let c := civilFromDays days
  ⟨pad4 c.1 ++ '-' :: pad2 c.2.1 ++ '-' :: pad2 c.2.2 ++ 'T' ::
    pad2 (rem / 3600) ++ ':' :: pad2 (rem % 3600 / 60) ++ ':' :: pad2 (rem % 60) ++ ['Z']⟩

/-! ## `parse_iso_date`: CPython `strptime` over the three formats

`parse_iso_date` tries `"%Y-%m-%dT%H:%M:%SZ"`, `"%Y-%m-%dT%H:%M:%S"` and
`"%Y-%m-%d"` in order.  The CPython `_strptime` directives compile to the
regular expressions `%Y ↦ \d\d\d\d`, `%m ↦ 1[0-2]|0[1-9]|[1-9]`,
`%d ↦ 3[01]|[12]\d|0[1-9]|[1-9]`, `%H ↦ 2[0-3]|[0-1]\d|\d` and
`%M, %S ↦ [0-5]\d|\d`, matched against the whole string;
the parsed fields are then validated by the `datetime` constructor
(year ≥ 1, day within the month). -/

/-- One token of a compiled `strptime` format: a fixed year directive, a
literal character, or a numeric directive that matches either two digits
with value in `[lo₂, hi₂]` or (on failure, as regex backtracking would)
one digit with value in `[lo₁, hi₁]`. -/
inductive FTok where
  | year : FTok
  | lit (c : Char) : FTok
  | num2 (lo2 hi2 lo1 hi1 : Nat) : FTok

def digitVal (c : Char) : Option Nat :=
  if c.isDigit then some (c.toNat - 48) else none

/-- Match a compiled format against a character list, returning the list
of captured field values (regex semantics: a two-digit numeric alternative
is preferred, with backtracking to the one-digit alternative when the rest
of the format fails).  CPython `_strptime` compiles the format with
`re.IGNORECASE`, so a literal character also matches its other-case
variant (`t`/`z` match the `T`/`Z` literals). -/
def matchToks : List FTok → List Char → Option (List Nat)
  | [], [] => some []
  | [], _ :: _ => none
  | .lit c :: ts, d :: cs => if d.toLower = c.toLower then matchToks ts cs else none
  | .lit _ :: _, [] => none
  | .year :: ts, a :: b :: c :: d :: cs =>
    (match digitVal a, digitVal b, digitVal c, digitVal d with
     | some w, some x, some y, some z =>
       (matchToks ts cs).map (fun vs => (1000 * w + 100 * x + 10 * y + z) :: vs)
     | _, _, _, _ => none)
  | .year :: _, [_, _, _] => none
  | .year :: _, [_, _] => none
  | .year :: _, [_] => none
  | .year :: _, [] => none
  | .num2 lo2 hi2 lo1 hi1 :: ts, a :: rest =>
    let two : Option (List Nat) :=
      match rest with
      | b :: cs =>
        (match digitVal a, digitVal b with
         | some x, some y =>
           if lo2 ≤ 10 * x + y ∧ 10 * x + y ≤ hi2 then
             (matchToks ts cs).map (fun vs => (10 * x + y) :: vs)
           else none
         | _, _ => none)
      | [] => none
    (match two with
     | some r => some r
     | none =>
       match digitVal a with
       | some x =>
         if lo1 ≤ x ∧ x ≤ hi1 then (matchToks ts rest).map (fun vs => x :: vs)
         else none
       | none => none)
  | .num2 _ _ _ _ :: _, [] => none

/-- Compiled `"%Y-%m-%d"`. -/
def fmtDate : List FTok :=
  [.year, .lit '-', .num2 1 12 1 9, .lit '-', .num2 1 31 1 9]

/-- Compiled `"%Y-%m-%dT%H:%M:%S"`. -/
def fmtDateTime : List FTok :=
  fmtDate ++ [.lit 'T', .num2 0 23 0 9, .lit ':', .num2 0 59 0 9, .lit ':', .num2 0 59 0 9]

/-- Compiled `"%Y-%m-%dT%H:%M:%SZ"`. -/
def fmtDateTimeZ : List FTok :=
  fmtDateTime ++ [.lit 'Z']

/-- `datetime` constructor validation applied to `strptime` fields, then
conversion of the UTC-decorated result to microseconds since the epoch. -/
def validateFields (y m d h mi s : Nat) : Option Int :=
  if 1 ≤ y ∧ d ≤ daysInMonth y m then some (epochMicros y m d h mi s) else none

/-- One iteration of the `parse_iso_date` loop: `strptime` with a single
format, `tzinfo` replaced by UTC. -/
def tryFormat (toks : List FTok) (s : String) : Option Int :=
  match matchToks toks s.data with
  | some [y, m, d] => validateFields y m d 0 0 0
  | some [y, m, d, h, mi, sec] => validateFields y m d h mi sec
  | _ => none

/-- `parse_iso_date(s)` (both adapters): microseconds since the epoch of
the parsed aware datetime, or `none` when every format fails (the Python
function raises `ValueError` in that case). -/
def parse_iso_date (s : String) : Option Int :=
  match tryFormat fmtDateTimeZ s with
  | some v => some v
  | none =>
    match tryFormat fmtDateTime s with
    | some v => some v
    | none => tryFormat fmtDate s

/-- The opencode variant of `parse_iso_date` returns
`int(dt.timestamp() * 1000)`, i.e. epoch milliseconds. -/
def parse_iso_date_ms (s : String) : Option Int :=
  (parse_iso_date s).map (fun v => v.fdiv 1000)

/-! ## `parse_timestamp`: `datetime.fromisoformat` after `Z`-replacement -/

/-- A Python `datetime` value: microseconds since the epoch (for a naive
datetime, of its fields read as UTC) plus the awareness flag. -/
structure PyDt where
  micros : Int
  aware : Bool
deriving DecidableEq, Repr

/-- `s.replace("Z", "+00:00")`: every occurrence replaced. -/
def replaceZ : List Char → List Char
  | [] => []
  | c :: rest =>
    if c = 'Z' then '+' :: '0' :: '0' :: ':' :: '0' :: '0' :: replaceZ rest
    else c :: replaceZ rest

def digit2 (a b : Char) : Option Nat :=
  match digitVal a, digitVal b with
  | some x, some y => some (10 * x + y)
  | _, _ => none

/-- Fractional-second digits: exactly three or exactly six digits, scaled
to microseconds. -/
def parseFrac : List Char → Option Nat
  | [a, b, c] =>
    (match digitVal a, digitVal b, digitVal c with
     | some x, some y, some z => some ((100 * x + 10 * y + z) * 1000)
     | _, _, _ => none)
  | [a, b, c, d, e, f] =>
    (match digitVal a, digitVal b, digitVal c, digitVal d, digitVal e, digitVal f with
     | some u, some v, some w, some x, some y, some z =>
       some (100000 * u + 10000 * v + 1000 * w + 100 * x + 10 * y + z)
     | _, _, _, _, _, _ => none)
  | _ => none

/-- UTC offset suffix `±HH:MM[:SS]`, in signed microseconds; the
`timezone` constructor requires the magnitude to be below 24 hours. -/
def parseOffset : List Char → Option Int
  | [] => some 0
  | sgn :: rest =>
    if sgn = '+' ∨ sgn = '-' then
      match rest with
      | [h1, h2, ':', m1, m2] =>
        (match digit2 h1 h2, digit2 m1 m2 with
         | some h, some m =>
           let mag : Int := ((h : Int) * 3600 + (m : Int) * 60) * 1000000
           if mag < 86400000000 then
             some (if sgn = '-' then -mag else mag)
           else none
         | _, _ => none)
      | [h1, h2, ':', m1, m2, ':', s1, s2] =>
        (match digit2 h1 h2, digit2 m1 m2, digit2 s1 s2 with
         | some h, some m, some s =>
           let mag : Int := ((h : Int) * 3600 + (m : Int) * 60 + (s : Int)) * 1000000
           if mag < 86400000000 then
             some (if sgn = '-' then -mag else mag)
           else none
         | _, _, _ => none)
      | _ => none
    else none

/-- Time-of-day with optional fraction and optional offset:
`HH[:MM[:SS[.fff|.ffffff]]][±HH:MM[:SS]]`.  Returns (microseconds into
the day, offset in microseconds or `none` for a naive time). -/
def parseTimeOfDay (cs : List Char) : Option (Int × Option Int) :=
  match cs with
  | h1 :: h2 :: rest =>
    match digit2 h1 h2 with
    | none => none
    | some h =>
      if h ≤ 23 then
        match rest with
        | [] => some ((h : Int) * 3600000000, none)
        | ':' :: m1 :: m2 :: rest2 =>
          (match digit2 m1 m2 with
           | none => none
           | some m =>
             if m ≤ 59 then
               let base : Int := (h : Int) * 3600000000 + (m : Int) * 60000000
               match rest2 with
               | [] => some (base, none)
               | ':' :: s1 :: s2 :: rest3 =>
                 (match digit2 s1 s2 with
                  | none => none
                  | some s =>
                    if s ≤ 59 then
                      let base2 : Int := base + (s : Int) * 1000000
                      match rest3 with
                      | [] => some (base2, none)
                      | '.' :: fs =>
                        let fracLen := fs.takeWhile Char.isDigit |>.length
                        (match parseFrac (fs.take fracLen) with
                         | none => none
                         | some fr =>
                           (parseOffset (fs.drop fracLen)).map
                             (fun off => (base2 + (fr : Int), some off)))
                      | rest4 =>
                        (parseOffset rest4).map (fun off => (base2, some off))
                    else none)
               | rest3 =>
                 (parseOffset rest3).map (fun off => (base, some off))
             else none)
        | rest2 =>
          (parseOffset rest2).map (fun off => ((h : Int) * 3600000000, some off))
      else none
  | _ => none

/-- `datetime.fromisoformat` (pre-3.11 grammar): `YYYY-MM-DD` optionally
followed by a one-character separator and a time-of-day with optional
fraction and offset.  An offset makes the result aware; its value is then
subtracted to obtain absolute microseconds. -/
def fromIsoFormat (cs : List Char) : Option PyDt :=
  match cs with
  | y1 :: y2 :: y3 :: y4 :: '-' :: m1 :: m2 :: '-' :: d1 :: d2 :: rest =>
    (match digitVal y1, digitVal y2, digitVal y3, digitVal y4,
           digit2 m1 m2, digit2 d1 d2 with
     | some a, some b, some c, some d, some m, some dd =>
       let y := 1000 * a + 100 * b + 10 * c + d
       if 1 ≤ y ∧ 1 ≤ m ∧ m ≤ 12 ∧ 1 ≤ dd ∧ dd ≤ daysInMonth y m then
         let dayMicros : Int := epochDays y m dd * 86400000000
         match rest with
         | [] => some ⟨dayMicros, false⟩
         | _sep :: timecs =>
           (parseTimeOfDay timecs).map (fun r =>
             match r.2 with
             | some off => ⟨dayMicros + r.1 - off, true⟩
             | none => ⟨dayMicros + r.1, false⟩)
       else none
     | _, _, _, _, _, _ => none)
  | _ => none

/-- `parse_timestamp(ts)` of the claude adapter: `None` for the empty
string, otherwise `fromisoformat` after replacing every `"Z"` with
`"+00:00"`. -/
def parse_timestamp (ts : String) : Option PyDt :=
  if ts = "" then none else fromIsoFormat (replaceZ ts.data)

/-- `dt_to_iso(dt)`: empty string for `None`; otherwise the datetime is
converted to UTC when aware (a no-op here, `PyDt.micros` being absolute
for aware values) and rendered without fractional seconds. -/
def dt_to_iso (dt : Option PyDt) : String :=
  match dt with
  | none => ""
  | some d => isoRender (d.micros.fdiv 1000000)

/-- `ms_to_iso(ms)` of the opencode adapter:
`datetime.utcfromtimestamp(ms / 1000)` rendered without fractional
seconds (flooring to whole seconds). -/
def ms_to_iso (ms : Int) : String :=
  isoRender (ms.fdiv 1000)

/-! ## Unified output shapes -/

structure ToolCall where
  tool : String
  input : String
  output : String
deriving DecidableEq, Repr

/-- A normalized message.  `tool_calls = none` models the `tool_calls`
key being absent from the emitted JSON object. -/
structure NMsg where
  role : String
  content : String
  timestamp : String
  tool_calls : Option (List ToolCall)
deriving DecidableEq, Repr

/-- The final output record.  `parent_id = none` models the `parent_id`
key being absent. -/
structure SessionRecord where
  source : String
  session_id : String
  project : String
  title : String
  time_start : String
  time_end : String
  messages : List NMsg
  parent_id : Option String
deriving DecidableEq, Repr

/-! ## Claude adapter (`scripts/parse_claude.py`) -/

/-- An entry of `sessions-index.json`, with the defaults the code applies
via `entry.get(...)`: missing string fields read as `""`, missing flags as
`False`. -/
structure IndexEntry where
  sessionId : String
  created : String
  modified : String
  firstPrompt : String
  summary : String
  projectPath : String
  fullPath : String
  isSidechain : Bool
  isMeta : Bool
deriving DecidableEq, Repr

/-- An inner block of a `tool_result` block's list-shaped content: only
dict blocks of type `"text"` contribute; everything else is ignored. -/
inductive IBlock where
  | text (s : String) : IBlock
  | other : IBlock

/-- One content block of a Claude message (a JSON dict with a `type` tag;
non-dict blocks are ignored and are represented by `other`).  A
`tool_result` block's `content` may be a string, a list of inner blocks,
or something else (ignored). -/
inductive CBlock where
  | text (s : String) : CBlock
  | toolUse (name : String) (input : JVal) : CBlock
  | toolResultStr (s : String) : CBlock
  | toolResultBlocks (inner : List IBlock) : CBlock
  | thinking : CBlock
  | other : CBlock

/-- The `message.content` field of a Claude JSONL record: missing (or the
`message` field is not a dict), a plain string, a block list, or some
other JSON value. -/
inductive CContent where
  | absent : CContent
  | str (s : String) : CContent
  | blocks (bs : List CBlock) : CContent
  | other : CContent

/-- One parsed line of a `.jsonl` session file. -/
structure ClaudeRecord where
  rtype : String
  timestamp : String
  content : CContent

/-- `extract_user_content(message)`: string content verbatim; block-list
content concatenates non-empty `text` blocks and rendered `tool_result`
blocks with newlines. -/
def extract_user_content (r : ClaudeRecord) : String :=
  match r.content with
  | .str s => s
  | .blocks bs =>
    String.intercalate "\n" (bs.filterMap (fun b =>
      match b with
      | .text s => if s = "" then none else some s
      | .toolResultStr s => some ("[Tool result: " ++ truncate s ++ "]")
      | .toolResultBlocks inner =>
        let ts := inner.filterMap (fun ib =>
          match ib with
          | .text s => some s
          | .other => none)
        if ts = [] then none
        else some ("[Tool result: " ++ truncate (String.intercalate "\n" ts) ++ "]")
      | _ => none))
  | _ => ""

/-- `extract_assistant_content(message)`: newline-joined non-empty `text`
blocks, plus one `ToolCall` per `tool_use` block.  A dict input is
JSON-serialized; any other input goes through Python `str`; the result is
truncated; `output` is always the empty string. -/
def extract_assistant_content (r : ClaudeRecord) : String × List ToolCall :=
  match r.content with
  | .blocks bs =>
    (String.intercalate "\n" (bs.filterMap (fun b =>
       match b with
       | .text s => if s = "" then none else some s
       | _ => none)),
     bs.filterMap (fun b =>
       match b with
       | .toolUse name input =>
         some { tool := name,
                input := truncate (match input with
                  | .obj fields => jsonDumps (.obj fields)
                  | v => pyStr v),
                output := "" }
       | _ => none))
  | _ => ("", [])

/-- The per-line decoding step of `process_jsonl_session`: a `user` line
with non-empty extracted content, or an `assistant` line with non-empty
text or tool calls, yields a normalized message; everything else yields
nothing.  `tool_calls` is set only when non-empty. -/
def decodeClaudeLine (r : ClaudeRecord) : Option NMsg :=
  if r.rtype = "user" then
    if extract_user_content r = "" then none
    else some { role := "user", content := extract_user_content r,
                timestamp := dt_to_iso (parse_timestamp r.timestamp),
                tool_calls := none }
  else if r.rtype = "assistant" then
    if (extract_assistant_content r).1 = "" ∧ (extract_assistant_content r).2 = [] then
      none
    else some { role := "assistant", content := (extract_assistant_content r).1,
                timestamp := dt_to_iso (parse_timestamp r.timestamp),
                tool_calls := if (extract_assistant_content r).2 = [] then none
                              else some (extract_assistant_content r).2 }
  else none

/-- The message list accumulated by `process_jsonl_session` over the
parsed lines of the file (corrupt and blank lines are represented as
already removed; they are skipped by the loop). -/
def claudeMessages (lines : List ClaudeRecord) : List NMsg :=
  lines.filterMap decodeClaudeLine

/-- `process_jsonl_session`: assemble the session record, or `None` when
no user/assistant message survived decoding. -/
def process_jsonl_session (lines : List ClaudeRecord) (entry : IndexEntry)
    (projectPath : String) : Option SessionRecord :=
  let messages := claudeMessages lines
  if messages = [] then none
  else
    let startFromIndex := dt_to_iso (parse_timestamp entry.created)
    let endFromIndex := dt_to_iso (parse_timestamp entry.modified)
    some { source := "claude-code",
           session_id := entry.sessionId,
           project := pyOr entry.projectPath projectPath,
           title := pyOr entry.firstPrompt (pyOr entry.summary entry.sessionId),
           time_start :=
             if startFromIndex = "" then ((messages.head?.map NMsg.timestamp).getD "")
             else startFromIndex,
           time_end :=
             if endFromIndex = "" then ((messages.getLast?.map NMsg.timestamp).getD "")
             else endFromIndex,
           messages := messages,
           parent_id := none }

/-- Comparison of an entry timestamp against a bound from
`parse_iso_date` (always aware): Python raises `TypeError` when the entry
timestamp is naive. -/
def cmpAware (d : PyDt) (cmp : Int → Int → Bool) (bound : Int) : Except String Bool :=
  if d.aware then .ok (cmp d.micros bound)
  else .error "TypeError: cannot compare offset-naive and offset-aware datetimes"

/-- The `modified`-side check of the loop body of
`filter_sessions_by_index`: `ok false` is the `continue` for an entry
whose parsed `modified` is strictly before `from_dt`; `ok true` reaches
the `matched.append(entry)` at the end of the loop body. -/
def modifiedDecision (e : IndexEntry) (fromDt : Int) : Except String Bool :=
  match parse_timestamp e.modified with
  | some md =>
    match cmpAware md (fun a b => a < b) fromDt with
    | .error msg => .error msg
    | .ok true => .ok false
    | .ok false => .ok true
  | none => .ok true

/-- The loop body of `filter_sessions_by_index` for one entry: `ok false`
models a `continue` (sidechain, meta, parsed `created` strictly after
`to_dt`, or parsed `modified` strictly before `from_dt`), `ok true` the
final `matched.append(entry)`, and an error the uncaught `TypeError` on
comparing a naive parsed timestamp with the aware bound. -/
def entryTimeDecision (e : IndexEntry) (fromDt toDt : Int) : Except String Bool :=
  if e.isSidechain then .ok false
  else if e.isMeta then .ok false
  else
    match parse_timestamp e.created with
    | some cd =>
      match cmpAware cd (fun a b => b < a) toDt with
      | .error msg => .error msg
      | .ok true => .ok false
      | .ok false => modifiedDecision e fromDt
    | none => modifiedDecision e fromDt

/-- `filter_sessions_by_index`: the loop over the index entries, keeping
in order the entries whose decision is `ok true` and propagating a
`TypeError`. -/
def filter_sessions_by_index (entries : List IndexEntry) (fromDt toDt : Int) :
    Except String (List IndexEntry) :=
  match entries with
  | [] => .ok []
  | e :: rest =>
    match entryTimeDecision e fromDt toDt with
    | .error msg => .error msg
    | .ok true => (filter_sessions_by_index rest fromDt toDt).map (e :: ·)
    | .ok false => filter_sessions_by_index rest fromDt toDt


/-- The body of the per-entry loop in `main` (claude adapter), with the
file system abstracted as a lookup from path to the parsed lines of the
`.jsonl` file there (`none`: no readable file).  Returns the emitted
record (if any) and the warnings emitted for this entry.  An entry whose
`sessionId` is missing/empty is skipped before any file access, emitting
nothing. -/
def processEntry (files : String → Option (List ClaudeRecord))
    (projectDir projectPath : String) (entry : IndexEntry) :
    Option SessionRecord × List String :=
  if entry.sessionId = "" then (none, [])
  else
    let path := projectDir ++ "/" ++ entry.sessionId ++ ".jsonl"
    match files path with
    | some lines => (process_jsonl_session lines entry projectPath, [])
    | none =>
      if entry.fullPath = "" then
        (none, ["JSONL file not found for session " ++ entry.sessionId ++ ": " ++ path])
      else
        match files entry.fullPath with
        | some lines => (process_jsonl_session lines entry projectPath, [])
        | none =>
          (none, ["JSONL file not found for session " ++ entry.sessionId ++ ": " ++ path])

/-- The per-entry loop of `main` over the matched entries of one project:
emitted records in order, plus warnings. -/
def runEntries (files : String → Option (List ClaudeRecord))
    (projectDir projectPath : String) :
    List IndexEntry → List SessionRecord × List String
  | [] => ([], [])
  | e :: rest =>
    let r := processEntry files projectDir projectPath e
    let rs := runEntries files projectDir projectPath rest
    ((match r.1 with | some x => x :: rs.1 | none => rs.1), r.2 ++ rs.2)

/-- One project of the claude adapter's `main`, on the index-backed path:
filter the index entries by flags and time range, then process each
matched entry.  An error models the uncaught `TypeError` from the
filter. -/
def runIndexProject (files : String → Option (List ClaudeRecord))
    (projectDir projectPath : String) (entries : List IndexEntry)
    (fromDt toDt : Int) : Except String (List SessionRecord × List String) :=
  (filter_sessions_by_index entries fromDt toDt).map
    (runEntries files projectDir projectPath)

/-! ## OpenCode adapter (`scripts/parse_opencode.py`) -/

/-- One part object (shared by both opencode backends).  For a `tool`
part, `input`/`output` hold `state.get("input", "")` and
`state.get("output", "")`: a missing `state` dict or missing key is
represented as the default `.str ""`. -/
inductive OPart where
  | text (s : String) : OPart
  | reasoning (s : String) : OPart
  | tool (name : String) (input output : JVal) : OPart
  | other : OPart

/-- `process_parts(parts)`: newline-joined text (with non-empty
`reasoning` parts rendered as `"[thinking] ..."` lines), plus one
`ToolCall` per `tool` part with both fields truncated. -/
def process_parts (parts : List OPart) : String × List ToolCall :=
  (String.intercalate "\n" (parts.filterMap (fun p =>
     match p with
     | .text s => if s = "" then none else some s
     | .reasoning s => if s = "" then none else some ("[thinking] " ++ s)
     | _ => none)),
   parts.filterMap (fun p =>
     match p with
     | .tool name input output =>
       some { tool := name, input := truncateVal input, output := truncateVal output }
     | _ => none))

/-- One message object: its id, role, and `time.created` when present and
numeric. -/
structure OMsg where
  id : String
  role : String
  timeCreated : Option Int
deriving DecidableEq, Repr

/-- The shared per-message step of both opencode backends: decode the
parts; a message with empty content and no tool calls yields nothing;
otherwise the `tool_calls` key is set only when non-empty and the
timestamp falls back to the empty string when `time.created` is absent or
non-numeric. -/
def decodeOMsg (m : OMsg) (parts : List OPart) : Option NMsg :=
  if (process_parts parts).1 = "" ∧ (process_parts parts).2 = [] then none
  else some { role := m.role, content := (process_parts parts).1,
              timestamp := match m.timeCreated with
                | some t => ms_to_iso t
                | none => "",
              tool_calls := if (process_parts parts).2 = [] then none
                            else some (process_parts parts).2 }

/-- `build_session_result`: the standard output object.  `time_start` and
`time_end` are rendered only when the corresponding session-level field
is numeric, and are the empty string otherwise; an empty or missing
`parent_id` leaves the key absent. -/
def build_session_result (sessionId directory title : String)
    (timeCreated timeUpdated : Option Int) (msgs : List NMsg)
    (parentId : Option String) : SessionRecord :=
  { source := "opencode",
    session_id := sessionId,
    project := directory,
    title := title,
    time_start := match timeCreated with
      | some t => ms_to_iso t
      | none => "",
    time_end := match timeUpdated with
      | some t => ms_to_iso t
      | none => "",
    messages := msgs,
    parent_id := match parentId with
      | some p => if p = "" then none else some p
      | none => none }

/-- A session object of the file-based backend (`ses_*.json`): `time`
fields are kept only when present and numeric, mirroring the
`isinstance(..., (int, float))` guards. -/
structure OSession where
  id : String
  directory : String
  title : Option String
  slug : Option String
  timeCreated : Option Int
  timeUpdated : Option Int
deriving DecidableEq, Repr

/-- The `load_messages` sort: messages ordered by `time.created`
(default 0), stably, mirroring Python's stable `list.sort`. -/
def sortedOMsgs (msgs : List (OMsg × List OPart)) : List (OMsg × List OPart) :=
  List.insertionSort
    (fun a b => a.1.timeCreated.getD 0 ≤ b.1.timeCreated.getD 0) msgs

/-- The unified message list the file backend accumulates: sorted
messages decoded one by one, empty decodings dropped. -/
def opencodeUnified (msgs : List (OMsg × List OPart)) : List NMsg :=
  (sortedOMsgs msgs).filterMap (fun p => decodeOMsg p.1 p.2)

/-- `process_session_file` composed with the `load_messages` sort: the
messages of the session are given as (message, its parts) pairs, the
message lookup and part lookup being abstracted into the pairing.
Messages are sorted by `time.created` (default 0) with a stable sort,
decoded, and the record is assembled; a project-path mismatch, an empty
raw message list, or an empty decoded message list yields `None`.  The
title falls back from `title` to `slug` to the empty string. -/
def process_session_file (sd : OSession) (msgs : List (OMsg × List OPart))
    (projectPathFilter : Option String) : Option SessionRecord :=
  if (match projectPathFilter with
      | some f => rstripSlash sd.directory != rstripSlash f
      | none => false) then none
  else if (sortedOMsgs msgs).isEmpty then none
  else if opencodeUnified msgs = [] then none
  else some (build_session_result sd.id sd.directory
    (pyOrOpt sd.title (pyOrOpt sd.slug ""))
    sd.timeCreated sd.timeUpdated (opencodeUnified msgs) none)

/-- A row of the `session` table (SQLite backend).  `none` models SQL
NULL. -/
structure SRow where
  id : String
  parent_id : Option String
  directory : Option String
  title : Option String
  time_created : Option Int
  time_updated : Option Int
  time_archived : Option Int
deriving DecidableEq, Repr

/-- The WHERE clause of the session query in `parse_sqlite`: optional
exact directory match against the filter with trailing slashes stripped,
`time_created` between the bounds (inclusive; a NULL `time_created` never
compares true), and `time_archived IS NULL`. -/
def sqliteRowSelected (row : SRow) (fromMs toMs : Int)
    (projectPathFilter : Option String) : Bool :=
  (match projectPathFilter with
   | some f => row.directory = some (rstripSlash f)
   | none => true) &&
  (match row.time_created with
   | some t => fromMs ≤ t && t ≤ toMs
   | none => false) &&
  row.time_archived = none

/-- The session query of `parse_sqlite`: the selected rows in ascending
`time_created` order (`ORDER BY time_created ASC`). -/
def sqliteSessionQuery (rows : List SRow) (fromMs toMs : Int)
    (projectPathFilter : Option String) : List SRow :=
  List.insertionSort (fun a b => a.time_created.getD 0 ≤ b.time_created.getD 0)
    (rows.filter (fun r => sqliteRowSelected r fromMs toMs projectPathFilter))

/-- The unified message list the SQLite backend accumulates (its message
rows already arrive sorted by the query). -/
def sqliteUnified (msgs : List (OMsg × List OPart)) : List NMsg :=
  msgs.filterMap (fun p => decodeOMsg p.1 p.2)

/-- The per-session body of `parse_sqlite`, with the message and part
queries abstracted into a list of (message, its parts) pairs, given in
the query's `time_created` order: a session with no message rows, or
whose every message decodes to nothing, yields no record; otherwise the
record is built with `title`/`directory` defaulted to `""` and an empty
`parent_id` normalized away. -/
def buildSqliteSession (row : SRow) (msgs : List (OMsg × List OPart)) :
    Option SessionRecord :=
  if msgs.isEmpty then none
  else if sqliteUnified msgs = [] then none
  else some (build_session_result row.id
    (pyOrOpt row.directory "") (pyOrOpt row.title "")
    row.time_created row.time_updated (sqliteUnified msgs)
    (match row.parent_id with
     | some p => if p = "" then none else some p
     | none => none))

/-! ## The date-argument stage of `main` (both adapters) -/

/-- C6: for every string fed through the tool-field truncation function,
a string longer than 200 characters is cut to exactly 200 characters
ending in `"..."` and starting with the original first 197 characters;
a string of at most 200 characters is returned unchanged. -/
theorem C6_truncate_contract (s : String) :
    (200 < s.length →
      (truncate s).length = 200 ∧
      (truncate s).data.drop 197 = ['.', '.', '.'] ∧
      (truncate s).data.take 197 = s.data.take 197) ∧
    (s.length ≤ 200 → truncate s = s) := by
  constructor
  · intro h
    have hdata : (truncate s).data = s.data.take 197 ++ ['.', '.', '.'] := by
      simp only [truncate, if_pos h]
      rfl
    have hlen197 : (s.data.take 197).length = 197 := by
      have : s.data.length = s.length := rfl
      simp only [List.length_take]
      omega
    refine ⟨?_, ?_, ?_⟩
    · show (truncate s).data.length = 200
      rw [hdata]
      simp [hlen197]
    · rw [hdata, List.drop_left' hlen197]
    · rw [hdata]
      rw [List.take_append_of_le_length (by omega), List.take_take]
      simp
  · intro h
    simp only [truncate]
    rw [if_neg (by omega)]

set_option maxRecDepth 4096 in
/-- Witness for C6 at a 201-character string and at a short string. -/
theorem C6_truncate_contract_witness :
    ((truncate (String.mk (List.replicate 201 'a'))).length = 200 ∧
      (truncate (String.mk (List.replicate 201 'a'))).data.drop 197 = ['.', '.', '.'] ∧
      (truncate (String.mk (List.replicate 201 'a'))).data.take 197 =
        (String.mk (List.replicate 201 'a')).data.take 197) ∧
    truncate "short" = "short" :=
  ⟨(C6_truncate_contract (String.mk (List.replicate 201 'a'))).1
      (by show (200 : Nat) < (List.replicate 201 'a').length; simp),
   (C6_truncate_contract "short").2 (by decide)⟩

/-- Helper: `process_jsonl_session` yields a record exactly when some
message survived decoding. -/
theorem pjs_isSome_iff (lines : List ClaudeRecord) (entry : IndexEntry) (pp : String) :
    (process_jsonl_session lines entry pp).isSome = true ↔ claudeMessages lines ≠ [] := by
  by_cases h : claudeMessages lines = [] <;> simp [process_jsonl_session, h]

/-- Helper: the only record `process_jsonl_session` can yield. -/
theorem pjs_shape (lines : List ClaudeRecord) (entry : IndexEntry) (pp : String) :
    process_jsonl_session lines entry pp = none ∨
    process_jsonl_session lines entry pp =
      some { source := "claude-code",
             session_id := entry.sessionId,
             project := pyOr entry.projectPath pp,
             title := pyOr entry.firstPrompt (pyOr entry.summary entry.sessionId),
             time_start :=
               if dt_to_iso (parse_timestamp entry.created) = "" then
                 (((claudeMessages lines).head?.map NMsg.timestamp).getD "")
               else dt_to_iso (parse_timestamp entry.created),
             time_end :=
               if dt_to_iso (parse_timestamp entry.modified) = "" then
                 (((claudeMessages lines).getLast?.map NMsg.timestamp).getD "")
               else dt_to_iso (parse_timestamp entry.modified),
             messages := claudeMessages lines,
             parent_id := none } := by
  by_cases h : claudeMessages lines = []
  · left
    simp [process_jsonl_session, h]
  · right
    simp [process_jsonl_session, h]

/-- Helper: the only record `process_session_file` can yield. -/
theorem psf_shape (sd : OSession) (msgs : List (OMsg × List OPart))
    (filt : Option String) :
    process_session_file sd msgs filt = none ∨
    process_session_file sd msgs filt =
      some (build_session_result sd.id sd.directory
        (pyOrOpt sd.title (pyOrOpt sd.slug ""))
        sd.timeCreated sd.timeUpdated (opencodeUnified msgs) none) := by
  unfold process_session_file
  split_ifs <;> first | exact Or.inl rfl | exact Or.inr rfl

/-- Helper: the only record `buildSqliteSession` can yield. -/
theorem bss_shape (row : SRow) (msgs : List (OMsg × List OPart)) :
    buildSqliteSession row msgs = none ∨
    buildSqliteSession row msgs =
      some (build_session_result row.id
        (pyOrOpt row.directory "") (pyOrOpt row.title "")
        row.time_created row.time_updated (sqliteUnified msgs)
        (match row.parent_id with
         | some p => if p = "" then none else some p
         | none => none)) := by
  unfold buildSqliteSession
  split_ifs <;> first | exact Or.inl rfl | exact Or.inr rfl

/-- C3 (counterexample): in the opencode adapter a session whose `title`
and `slug` are both missing gets the empty title, not its non-empty
session id `"ses_x"` — the session id is not the last-resort fallback
there. -/
theorem C3_title_counterexample :
    (process_session_file
        { id := "ses_x", directory := "/p", title := none, slug := none,
          timeCreated := some 0, timeUpdated := some 0 }
        [({ id := "msg_1", role := "user", timeCreated := some 0 }, [OPart.text "hi"])]
        none).map SessionRecord.title = some "" ∧
      ("" : String) ≠ "ses_x" := by
  constructor
  · rfl
  · decide

/-- C3 (amended): in the claude adapter the title falls back from
`firstPrompt` to `summary` to the session id, and is never empty when the
session id is non-empty; in the opencode adapter the title falls back
from the `title` field to the `slug` field (file backend) to the empty
string, and from the `title` column to the empty string (SQLite backend)
— a present-but-empty field counts as missing, and the session id is
never used as a fallback there. -/
theorem C3_title_resolution :
    (∀ (lines : List ClaudeRecord) (entry : IndexEntry) (pp : String),
      (process_jsonl_session lines entry pp).isSome = true →
      ((entry.firstPrompt ≠ "" →
          (process_jsonl_session lines entry pp).map SessionRecord.title =
            some entry.firstPrompt) ∧
       (entry.firstPrompt = "" → entry.summary ≠ "" →
          (process_jsonl_session lines entry pp).map SessionRecord.title =
            some entry.summary) ∧
       (entry.firstPrompt = "" → entry.summary = "" →
          (process_jsonl_session lines entry pp).map SessionRecord.title =
            some entry.sessionId) ∧
       (entry.sessionId ≠ "" →
          (process_jsonl_session lines entry pp).map SessionRecord.title ≠ some ""))) ∧
    (∀ (sd : OSession) (msgs : List (OMsg × List OPart)) (filt : Option String),
      (process_session_file sd msgs filt).isSome = true →
      (((process_session_file sd msgs filt).map SessionRecord.title =
          some (pyOrOpt sd.title (pyOrOpt sd.slug ""))) ∧
       (∀ t, sd.title = some t → t ≠ "" →
          (process_session_file sd msgs filt).map SessionRecord.title = some t) ∧
       ((sd.title = none ∨ sd.title = some "") →
          ∀ sl, sd.slug = some sl → sl ≠ "" →
          (process_session_file sd msgs filt).map SessionRecord.title = some sl) ∧
       ((sd.title = none ∨ sd.title = some "") →
          (sd.slug = none ∨ sd.slug = some "") →
          (process_session_file sd msgs filt).map SessionRecord.title = some ""))) ∧
    (∀ (row : SRow) (msgs : List (OMsg × List OPart)),
      (buildSqliteSession row msgs).isSome = true →
      (((buildSqliteSession row msgs).map SessionRecord.title =
          some (pyOrOpt row.title "")) ∧
       (∀ t, row.title = some t → t ≠ "" →
          (buildSqliteSession row msgs).map SessionRecord.title = some t) ∧
       ((row.title = none ∨ row.title = some "") →
          (buildSqliteSession row msgs).map SessionRecord.title = some ""))) := by
  refine ⟨?_, ?_, ?_⟩
  · intro lines entry pp hs
    have hm : claudeMessages lines ≠ [] := (pjs_isSome_iff lines entry pp).mp hs
    refine ⟨?_, ?_, ?_, ?_⟩
    · intro h1
      simp [process_jsonl_session, hm, pyOr, h1]
    · intro h1 h2
      simp [process_jsonl_session, hm, pyOr, h1, h2]
    · intro h1 h2
      simp [process_jsonl_session, hm, pyOr, h1, h2]
    · intro h1
      simp only [process_jsonl_session, hm, if_neg, if_false, Option.map_some,
        Option.some.injEq, pyOr]
      split_ifs with a b <;> simp_all
  · intro sd msgs filt hs
    have heq : (process_session_file sd msgs filt).map SessionRecord.title =
        some (pyOrOpt sd.title (pyOrOpt sd.slug "")) := by
      rcases psf_shape sd msgs filt with h | h
      · rw [h] at hs
        simp at hs
      · rw [h]
        simp [build_session_result]
    refine ⟨heq, ?_, ?_, ?_⟩
    · intro t hT ht
      rw [heq, hT]
      simp [pyOrOpt, ht]
    · intro hTit sl hSl hsl
      have h1 : pyOrOpt sd.title (pyOrOpt sd.slug "") = pyOrOpt sd.slug "" := by
        rcases hTit with hn | hn <;> simp [pyOrOpt, hn]
      rw [heq, h1, hSl]
      simp [pyOrOpt, hsl]
    · intro hTit hSl
      have h1 : pyOrOpt sd.title (pyOrOpt sd.slug "") = pyOrOpt sd.slug "" := by
        rcases hTit with hn | hn <;> simp [pyOrOpt, hn]
      have h2 : pyOrOpt sd.slug "" = "" := by
        rcases hSl with hn | hn <;> simp [pyOrOpt, hn]
      rw [heq, h1, h2]
  · intro row msgs hs
    have heq : (buildSqliteSession row msgs).map SessionRecord.title =
        some (pyOrOpt row.title "") := by
      rcases bss_shape row msgs with h | h
      · rw [h] at hs
        simp at hs
      · rw [h]
        simp [build_session_result]
    refine ⟨heq, ?_, ?_⟩
    · intro t hT ht
      rw [heq, hT]
      simp [pyOrOpt, ht]
    · intro hTit
      have h1 : pyOrOpt row.title "" = "" := by
        rcases hTit with hn | hn <;> simp [pyOrOpt, hn]
      rw [heq, h1]

/-- Witness for C3 at concrete sessions of all three shapes, exercising
the explicit-title case, the slug fallback, and the empty fallback. -/
theorem C3_title_resolution_witness :
    (process_jsonl_session
        [{ rtype := "user", timestamp := "", content := .str "hi" }]
        { sessionId := "s1", created := "", modified := "", firstPrompt := "Hello",
          summary := "", projectPath := "", fullPath := "", isSidechain := false,
          isMeta := false } "/p").map SessionRecord.title = some "Hello" ∧
    (process_session_file
        { id := "ses_y", directory := "/p", title := some "T", slug := none,
          timeCreated := some 0, timeUpdated := some 0 }
        [({ id := "m", role := "user", timeCreated := some 0 }, [OPart.text "hi"])]
        none).map SessionRecord.title = some "T" ∧
    (process_session_file
        { id := "ses_y2", directory := "/p", title := none, slug := some "S",
          timeCreated := some 0, timeUpdated := some 0 }
        [({ id := "m", role := "user", timeCreated := some 0 }, [OPart.text "hi"])]
        none).map SessionRecord.title = some "S" ∧
    (buildSqliteSession
        { id := "ses_z", parent_id := none, directory := some "/p", title := some "U",
          time_created := some 0, time_updated := some 0, time_archived := none }
        [({ id := "m", role := "user", timeCreated := some 0 }, [OPart.text "hi"])]).map
      SessionRecord.title = some "U" ∧
    (buildSqliteSession
        { id := "ses_z2", parent_id := none, directory := some "/p", title := none,
          time_created := some 0, time_updated := some 0, time_archived := none }
        [({ id := "m", role := "user", timeCreated := some 0 }, [OPart.text "hi"])]).map
      SessionRecord.title = some "" := by
  refine ⟨?_, ?_, ?_, ?_, ?_⟩
  · exact ((C3_title_resolution.1 _ _ _ (by decide)).1 (by decide))
  · exact ((C3_title_resolution.2.1 _ _ none (by rfl)).2.1 "T" rfl (by decide))
  · exact ((C3_title_resolution.2.1 _ _ none (by rfl)).2.2.1 (Or.inl rfl) "S" rfl
      (by decide))
  · exact ((C3_title_resolution.2.2 _ _ (by rfl)).2.1 "U" rfl (by decide))
  · exact ((C3_title_resolution.2.2 _ _ (by rfl)).2.2 (Or.inl rfl))

/-- Helper: the `strftime` rendering is never the empty string. -/
theorem isoRender_ne_empty (t : Int) : isoRender t ≠ "" := by
  intro h
  have h2 := congrArg String.data h
  simp [isoRender, pad4] at h2

/-- Helper: a parsed timestamp never renders to the empty string. -/
theorem dt_to_iso_some_ne_empty (d : PyDt) : dt_to_iso (some d) ≠ "" :=
  isoRender_ne_empty _

/-- C4 (counterexample): in the opencode adapter a session whose
`time.updated` is absent gets an empty `time_end` even though its last
normalized message carries the timestamp `"2025-02-20T12:00:00Z"` — no
fallback to message timestamps exists there. -/
theorem C4_time_counterexample :
    (process_session_file
        { id := "s", directory := "/p", title := some "t", slug := none,
          timeCreated := some 1740052800000, timeUpdated := none }
        [({ id := "m", role := "user", timeCreated := some 1740052800000 },
          [OPart.text "hi"])]
        none).map (fun r => (r.time_end, r.messages.map NMsg.timestamp)) =
      some ("", ["2025-02-20T12:00:00Z"]) ∧
    ("" : String) ≠ "2025-02-20T12:00:00Z" := by
  exact ⟨rfl, by decide⟩

/-- C4 (amended): in the claude adapter `time_start` is the rendered
session-level `created` timestamp when it parses, else the first
normalized message's timestamp, else the empty string, and symmetrically
`time_end` from `modified` and the last message.  In the opencode adapter
(both backends) `time_start`/`time_end` are the rendered session-level
`time.created`/`time.updated` (or `time_created`/`time_updated`) fields
when those are numeric and the empty string otherwise — message
timestamps are never consulted there. -/
theorem C4_time_resolution :
    (∀ (lines : List ClaudeRecord) (entry : IndexEntry) (pp : String),
      (process_jsonl_session lines entry pp).isSome = true →
      ((∀ d, parse_timestamp entry.created = some d →
          (process_jsonl_session lines entry pp).map SessionRecord.time_start =
            some (dt_to_iso (some d))) ∧
       (parse_timestamp entry.created = none →
          (process_jsonl_session lines entry pp).map SessionRecord.time_start =
            some (((claudeMessages lines).head?.map NMsg.timestamp).getD "")) ∧
       (∀ d, parse_timestamp entry.modified = some d →
          (process_jsonl_session lines entry pp).map SessionRecord.time_end =
            some (dt_to_iso (some d))) ∧
       (parse_timestamp entry.modified = none →
          (process_jsonl_session lines entry pp).map SessionRecord.time_end =
            some (((claudeMessages lines).getLast?.map NMsg.timestamp).getD "")))) ∧
    (∀ (sd : OSession) (msgs : List (OMsg × List OPart)) (filt : Option String),
      (process_session_file sd msgs filt).isSome = true →
      (process_session_file sd msgs filt).map SessionRecord.time_start =
        some ((sd.timeCreated.map ms_to_iso).getD "") ∧
      (process_session_file sd msgs filt).map SessionRecord.time_end =
        some ((sd.timeUpdated.map ms_to_iso).getD "")) ∧
    (∀ (row : SRow) (msgs : List (OMsg × List OPart)),
      (buildSqliteSession row msgs).isSome = true →
      (buildSqliteSession row msgs).map SessionRecord.time_start =
        some ((row.time_created.map ms_to_iso).getD "") ∧
      (buildSqliteSession row msgs).map SessionRecord.time_end =
        some ((row.time_updated.map ms_to_iso).getD "")) := by
  refine ⟨?_, ?_, ?_⟩
  · intro lines entry pp hs
    rcases pjs_shape lines entry pp with h | h
    · rw [h] at hs
      simp at hs
    refine ⟨?_, ?_, ?_, ?_⟩
    · intro d hd
      rw [h, Option.map_some']
      dsimp only
      rw [hd, if_neg (dt_to_iso_some_ne_empty d)]
    · intro hd
      rw [h, Option.map_some']
      dsimp only
      rw [hd]
      rfl
    · intro d hd
      rw [h, Option.map_some']
      dsimp only
      rw [hd, if_neg (dt_to_iso_some_ne_empty d)]
    · intro hd
      rw [h, Option.map_some']
      dsimp only
      rw [hd]
      rfl
  · intro sd msgs filt hs
    rcases psf_shape sd msgs filt with h | h
    · rw [h] at hs
      simp at hs
    · rw [h]
      cases sd.timeCreated <;> cases sd.timeUpdated <;>
        simp [build_session_result]
  · intro row msgs hs
    rcases bss_shape row msgs with h | h
    · rw [h] at hs
      simp at hs
    · rw [h]
      cases row.time_created <;> cases row.time_updated <;>
        simp [build_session_result]

/-- Witness for C4 at concrete sessions: a claude session with a
parseable index `created` and an unparseable `modified`, and an opencode
session with a numeric `time.created` and absent `time.updated`. -/
theorem C4_time_resolution_witness :
    (process_jsonl_session
        [{ rtype := "user", timestamp := "2026-02-20T09:00:05Z", content := .str "hi" }]
        { sessionId := "s1", created := "2026-02-20T09:00:00.000Z", modified := "",
          firstPrompt := "p", summary := "", projectPath := "", fullPath := "",
          isSidechain := false, isMeta := false } "/p").map SessionRecord.time_start =
      some (dt_to_iso (some { micros := 1771578000000000, aware := true })) ∧
    (process_jsonl_session
        [{ rtype := "user", timestamp := "2026-02-20T09:00:05Z", content := .str "hi" }]
        { sessionId := "s1", created := "2026-02-20T09:00:00.000Z", modified := "",
          firstPrompt := "p", summary := "", projectPath := "", fullPath := "",
          isSidechain := false, isMeta := false } "/p").map SessionRecord.time_end =
      some "2026-02-20T09:00:05Z" ∧
    (process_session_file
        { id := "s", directory := "/p", title := some "t", slug := none,
          timeCreated := some 1740052800000, timeUpdated := none }
        [({ id := "m", role := "user", timeCreated := some 1740052800000 },
          [OPart.text "hi"])]
        none).map SessionRecord.time_start = some "2025-02-20T12:00:00Z" := by
  refine ⟨?_, ?_, ?_⟩
  · exact (C4_time_resolution.1 _ _ _ (by decide)).1 _ (by decide)
  · have h := (C4_time_resolution.1
      [{ rtype := "user", timestamp := "2026-02-20T09:00:05Z", content := .str "hi" }]
      { sessionId := "s1", created := "2026-02-20T09:00:00.000Z", modified := "",
        firstPrompt := "p", summary := "", projectPath := "", fullPath := "",
        isSidechain := false, isMeta := false } "/p" (by decide)).2.2.2 (by decide)
    rw [h]
    rfl
  · have h := ((C4_time_resolution.2.1
      { id := "s", directory := "/p", title := some "t", slug := none,
        timeCreated := some 1740052800000, timeUpdated := none }
      [({ id := "m", role := "user", timeCreated := some 1740052800000 },
        [OPart.text "hi"])] none) (by rfl)).1
    rw [h]
    rfl

/-- C7 (counterexample): in the claude adapter a `tool_use` block whose
input is the boolean `true` (not a string, not a dict) is stored as
Python's `str(True) = "True"`, not as its JSON serialization `"true"`. -/
theorem C7_tool_serialization_counterexample :
    (extract_assistant_content
        { rtype := "assistant", timestamp := "",
          content := .blocks [CBlock.toolUse "bash" (JVal.bool true)] }).2 =
      [{ tool := "bash", input := "True", output := "" }] ∧
    truncate (jsonDumps (JVal.bool true)) = "true" ∧
    ("True" : String) ≠ "true" := by
  exact ⟨rfl, rfl, by decide⟩

/-- C7 (amended): in the claude adapter a dict-shaped `tool_use` input is
JSON-serialized and truncated, while any other input is rendered with
Python `str` (which differs from JSON serialization for booleans, `None`,
and strings nested in containers), and the stored `output` is always the
empty string; in the opencode adapter a `tool` part's input and output
are truncated with non-string, non-null values JSON-serialized first and
null (or missing) values becoming the empty string. -/
theorem C7_tool_serialization :
    (∀ (r : ClaudeRecord) (bs : List CBlock) (name : String)
       (fields : List (String × JVal)),
      r.content = CContent.blocks bs → CBlock.toolUse name (JVal.obj fields) ∈ bs →
      ({ tool := name, input := truncate (jsonDumps (JVal.obj fields)),
         output := "" } : ToolCall) ∈ (extract_assistant_content r).2) ∧
    (∀ (r : ClaudeRecord) (bs : List CBlock) (name : String) (input : JVal),
      r.content = CContent.blocks bs → CBlock.toolUse name input ∈ bs →
      (∀ fields, input ≠ JVal.obj fields) →
      ({ tool := name, input := truncate (pyStr input),
         output := "" } : ToolCall) ∈ (extract_assistant_content r).2) ∧
    (∀ (r : ClaudeRecord) (tc : ToolCall),
      tc ∈ (extract_assistant_content r).2 → tc.output = "") ∧
    (∀ (parts : List OPart) (name : String) (input output : JVal),
      OPart.tool name input output ∈ parts →
      ({ tool := name, input := truncateVal input,
         output := truncateVal output } : ToolCall) ∈ (process_parts parts).2) ∧
    (∀ input : JVal, (∀ s, input ≠ JVal.str s) → input ≠ JVal.null →
      truncateVal input = truncate (jsonDumps input)) ∧
    truncateVal (JVal.str "") = "" := by
  refine ⟨?_, ?_, ?_, ?_, ?_, rfl⟩
  · rintro ⟨rt, ts, rc⟩ bs name fields hc hm
    cases hc
    exact List.mem_filterMap.mpr ⟨_, hm, rfl⟩
  · rintro ⟨rt, ts, rc⟩ bs name input hc hm hni
    cases hc
    refine List.mem_filterMap.mpr ⟨_, hm, ?_⟩
    cases input with
    | obj fields => exact absurd rfl (hni fields)
    | null => rfl
    | bool b => rfl
    | int n => rfl
    | str s => rfl
    | arr items => rfl
  · rintro ⟨rt, ts, rc⟩ tc htc
    cases rc with
    | blocks bs =>
      rcases List.mem_filterMap.mp htc with ⟨b, _, hb⟩
      cases b <;> simp at hb
      rw [← hb]
    | absent => simp [extract_assistant_content] at htc
    | str s => simp [extract_assistant_content] at htc
    | other => simp [extract_assistant_content] at htc
  · intro parts name input output hm
    exact List.mem_filterMap.mpr ⟨_, hm, rfl⟩
  · intro input h1 h2
    cases input with
    | null => exact absurd rfl h2
    | str s => exact absurd rfl (h1 s)
    | bool b => rfl
    | int n => rfl
    | arr items => rfl
    | obj fields => rfl

/-- Witness for C7 at a concrete dict-input block and a concrete
opencode tool part. -/
theorem C7_tool_serialization_witness :
    ({ tool := "t", input := truncate (jsonDumps (JVal.obj [])),
       output := "" } : ToolCall) ∈
      (extract_assistant_content
        { rtype := "assistant", timestamp := "",
          content := .blocks [CBlock.toolUse "t" (JVal.obj [])] }).2 ∧
    ({ tool := "u", input := truncateVal (JVal.int 7),
       output := truncateVal (JVal.str "out") } : ToolCall) ∈
      (process_parts [OPart.tool "u" (JVal.int 7) (JVal.str "out")]).2 ∧
    truncateVal (JVal.int 7) = truncate (jsonDumps (JVal.int 7)) := by
  refine ⟨?_, ?_, ?_⟩
  · exact C7_tool_serialization.1 _ [CBlock.toolUse "t" (JVal.obj [])] "t" []
      rfl (List.mem_cons_self _ _)
  · exact C7_tool_serialization.2.2.2.1 _ "u" (JVal.int 7) (JVal.str "out")
      (List.mem_cons_self _ _)
  · exact C7_tool_serialization.2.2.2.2.1 (JVal.int 7)
      (fun s h => JVal.noConfusion h) (fun h => JVal.noConfusion h)

/-- The per-message invariant of C2: non-empty content or a non-empty
tool-call list, and never an empty `tool_calls` list (the key is absent
instead). -/
def msgInvariant (m : NMsg) : Prop :=
  (m.content ≠ "" ∨ ∃ tcs, m.tool_calls = some tcs ∧ tcs ≠ []) ∧
    m.tool_calls ≠ some []

/-- Helper: any message decoded from a claude line satisfies the
invariant. -/
theorem decodeClaudeLine_invariant (l : ClaudeRecord) (m : NMsg)
    (h : decodeClaudeLine l = some m) : msgInvariant m := by
  unfold decodeClaudeLine at h
  by_cases hu : l.rtype = "user"
  · rw [if_pos hu] at h
    by_cases hc : extract_user_content l = ""
    · rw [if_pos hc] at h
      cases h
    · rw [if_neg hc] at h
      cases h
      exact ⟨Or.inl hc, by simp⟩
  · rw [if_neg hu] at h
    by_cases ha : l.rtype = "assistant"
    · rw [if_pos ha] at h
      by_cases hb : (extract_assistant_content l).1 = "" ∧
          (extract_assistant_content l).2 = []
      · rw [if_pos hb] at h
        cases h
      · rw [if_neg hb] at h
        by_cases htc : (extract_assistant_content l).2 = []
        · rw [if_pos htc] at h
          cases h
          exact ⟨Or.inl (fun hcc => hb ⟨hcc, htc⟩), by simp⟩
        · rw [if_neg htc] at h
          cases h
          exact ⟨Or.inr ⟨_, rfl, htc⟩, by simp [htc]⟩
    · rw [if_neg ha] at h
      cases h

/-- Helper: any message decoded from opencode parts satisfies the
invariant. -/
theorem decodeOMsg_invariant (om : OMsg) (parts : List OPart) (m : NMsg)
    (h : decodeOMsg om parts = some m) : msgInvariant m := by
  unfold decodeOMsg at h
  by_cases hb : (process_parts parts).1 = "" ∧ (process_parts parts).2 = []
  · rw [if_pos hb] at h
    cases h
  · rw [if_neg hb] at h
    by_cases htc : (process_parts parts).2 = []
    · rw [if_pos htc] at h
      cases h
      exact ⟨Or.inl (fun hcc => hb ⟨hcc, htc⟩), by simp⟩
    · rw [if_neg htc] at h
      cases h
      exact ⟨Or.inr ⟨_, rfl, htc⟩, by simp [htc]⟩

/-- C2: in every emitted record of either adapter the message list is
non-empty, every message has non-empty content or a non-empty tool-call
list, the `tool_calls` key is absent rather than an empty list, and a
session whose every message decodes to empty content and no tool calls
produces no record at all. -/
theorem C2_message_invariants :
    (∀ (lines : List ClaudeRecord) (entry : IndexEntry) (pp : String)
       (rec : SessionRecord),
      process_jsonl_session lines entry pp = some rec →
      rec.messages ≠ [] ∧ ∀ m ∈ rec.messages, msgInvariant m) ∧
    (∀ (lines : List ClaudeRecord) (entry : IndexEntry) (pp : String),
      (∀ l ∈ lines, decodeClaudeLine l = none) →
      process_jsonl_session lines entry pp = none) ∧
    (∀ (sd : OSession) (msgs : List (OMsg × List OPart)) (filt : Option String)
       (rec : SessionRecord),
      process_session_file sd msgs filt = some rec →
      rec.messages ≠ [] ∧ ∀ m ∈ rec.messages, msgInvariant m) ∧
    (∀ (sd : OSession) (msgs : List (OMsg × List OPart)) (filt : Option String),
      (∀ p ∈ msgs, decodeOMsg p.1 p.2 = none) →
      process_session_file sd msgs filt = none) ∧
    (∀ (row : SRow) (msgs : List (OMsg × List OPart)) (rec : SessionRecord),
      buildSqliteSession row msgs = some rec →
      rec.messages ≠ [] ∧ ∀ m ∈ rec.messages, msgInvariant m) ∧
    (∀ (row : SRow) (msgs : List (OMsg × List OPart)),
      (∀ p ∈ msgs, decodeOMsg p.1 p.2 = none) →
      buildSqliteSession row msgs = none) := by
  refine ⟨?_, ?_, ?_, ?_, ?_, ?_⟩
  · intro lines entry pp rec h
    have hsome : (process_jsonl_session lines entry pp).isSome = true := by
      rw [h]; rfl
    have hne : claudeMessages lines ≠ [] := (pjs_isSome_iff lines entry pp).mp hsome
    rcases pjs_shape lines entry pp with hsh | hsh
    · rw [h] at hsh
      cases hsh
    · rw [h] at hsh
      have hrec := Option.some.inj hsh
      constructor
      · rw [hrec]
        exact hne
      · intro m hm
        rw [hrec] at hm
        rcases List.mem_filterMap.mp hm with ⟨l, _, hl⟩
        exact decodeClaudeLine_invariant l m hl
  · intro lines entry pp hall
    have : claudeMessages lines = [] := List.filterMap_eq_nil_iff.mpr hall
    simp [process_jsonl_session, this]
  · intro sd msgs filt rec h
    rcases psf_shape sd msgs filt with hsh | hsh
    · rw [h] at hsh
      cases hsh
    · rw [h] at hsh
      have hrec := Option.some.inj hsh
      have hne : opencodeUnified msgs ≠ [] := by
        intro hnil
        unfold process_session_file at h
        rw [hnil] at h
        split_ifs at h
        simp_all
      constructor
      · rw [hrec]
        exact hne
      · intro m hm
        rw [hrec] at hm
        rcases List.mem_filterMap.mp hm with ⟨p, _, hp⟩
        exact decodeOMsg_invariant p.1 p.2 m hp
  · intro sd msgs filt hall
    have hnil : opencodeUnified msgs = [] := by
      apply List.filterMap_eq_nil_iff.mpr
      intro p hp
      exact hall p ((List.mem_insertionSort _).mp hp)
    unfold process_session_file
    rw [hnil]
    simp
  · intro row msgs rec h
    rcases bss_shape row msgs with hsh | hsh
    · rw [h] at hsh
      cases hsh
    · rw [h] at hsh
      have hrec := Option.some.inj hsh
      have hne : sqliteUnified msgs ≠ [] := by
        intro hnil
        unfold buildSqliteSession at h
        rw [hnil] at h
        split_ifs at h
        simp_all
      constructor
      · rw [hrec]
        exact hne
      · intro m hm
        rw [hrec] at hm
        rcases List.mem_filterMap.mp hm with ⟨p, _, hp⟩
        exact decodeOMsg_invariant p.1 p.2 m hp
  · intro row msgs hall
    have hnil : sqliteUnified msgs = [] := List.filterMap_eq_nil_iff.mpr hall
    unfold buildSqliteSession
    rw [hnil]
    simp

/-- Witness for C2: a claude session with one non-empty user line and one
empty one, and a claude session whose only line decodes to nothing. -/
theorem C2_message_invariants_witness :
    ((process_jsonl_session
        [{ rtype := "user", timestamp := "", content := .str "hi" },
         { rtype := "user", timestamp := "", content := .str "" }]
        { sessionId := "s1", created := "", modified := "", firstPrompt := "",
          summary := "", projectPath := "", fullPath := "", isSidechain := false,
          isMeta := false } "/p").map SessionRecord.messages =
      some [{ role := "user", content := "hi", timestamp := "", tool_calls := none }]) ∧
    process_jsonl_session
        [{ rtype := "user", timestamp := "", content := .str "" }]
        { sessionId := "s1", created := "", modified := "", firstPrompt := "",
          summary := "", projectPath := "", fullPath := "", isSidechain := false,
          isMeta := false } "/p" = none ∧
    ([{ role := "user", content := "hi", timestamp := "", tool_calls := none }] :
      List NMsg) ≠ [] := by
  refine ⟨by decide, ?_, by decide⟩
  exact C2_message_invariants.2.1 _ _ _ (by decide)

/-- Helper: the WHERE clause of the session query, as a proposition. -/
theorem sqliteRowSelected_iff (r : SRow) (fromMs toMs : Int) (filt : Option String) :
    sqliteRowSelected r fromMs toMs filt = true ↔
      ((∀ f, filt = some f → r.directory = some (rstripSlash f)) ∧
       (∃ t, r.time_created = some t ∧ fromMs ≤ t ∧ t ≤ toMs) ∧
       r.time_archived = none) := by
  unfold sqliteRowSelected
  cases filt <;> cases htc : r.time_created <;> simp [htc, and_assoc]

/-- C5: a session row is selected by the SQLite strategy iff its
`time_created` lies inside the inclusive `[from, to]` window, it is not
archived, and (when a project filter is given) its directory equals the
filter with trailing slashes stripped; the selected rows come out in
ascending `time_created` order. -/
theorem C5_sqlite_query (rows : List SRow) (fromMs toMs : Int)
    (filt : Option String) (r : SRow) :
    (r ∈ sqliteSessionQuery rows fromMs toMs filt ↔
      (r ∈ rows ∧
       (∀ f, filt = some f → r.directory = some (rstripSlash f)) ∧
       (∃ t, r.time_created = some t ∧ fromMs ≤ t ∧ t ≤ toMs) ∧
       r.time_archived = none)) ∧
    List.Sorted (fun a b => a.time_created.getD 0 ≤ b.time_created.getD 0)
      (sqliteSessionQuery rows fromMs toMs filt) := by
  constructor
  · rw [sqliteSessionQuery, List.mem_insertionSort, List.mem_filter]
    rw [sqliteRowSelected_iff]
  · have ht : IsTrans SRow (fun a b => a.time_created.getD 0 ≤ b.time_created.getD 0) :=
      ⟨fun _ _ _ hab hbc => le_trans hab hbc⟩
    have hto : IsTotal SRow (fun a b => a.time_created.getD 0 ≤ b.time_created.getD 0) :=
      ⟨fun a b => le_total _ _⟩
    exact List.sorted_insertionSort _ _

/-- Witness for C5: one in-range row is selected, an archived in-range
row is not. -/
theorem C5_sqlite_query_witness :
    ({ id := "a", parent_id := none, directory := some "/p", title := some "t",
       time_created := some 5, time_updated := some 6,
       time_archived := none } : SRow) ∈
      sqliteSessionQuery
        [{ id := "a", parent_id := none, directory := some "/p", title := some "t",
           time_created := some 5, time_updated := some 6, time_archived := none },
         { id := "b", parent_id := none, directory := some "/p", title := some "t",
           time_created := some 5, time_updated := some 6, time_archived := some 7 }]
        0 10 (some "/p/") ∧
    ({ id := "b", parent_id := none, directory := some "/p", title := some "t",
       time_created := some 5, time_updated := some 6,
       time_archived := some 7 } : SRow) ∉
      sqliteSessionQuery
        [{ id := "a", parent_id := none, directory := some "/p", title := some "t",
           time_created := some 5, time_updated := some 6, time_archived := none },
         { id := "b", parent_id := none, directory := some "/p", title := some "t",
           time_created := some 5, time_updated := some 6, time_archived := some 7 }]
        0 10 (some "/p/") := by
  constructor
  · exact (C5_sqlite_query _ 0 10 (some "/p/") _).1.mpr
      ⟨by decide, fun f hf => by cases hf; decide, ⟨5, rfl, by decide, by decide⟩, rfl⟩
  · intro hmem
    have h := ((C5_sqlite_query _ 0 10 (some "/p/") _).1.mp hmem).2.2.2
    cases h

/-- Helper: whether a loop decision keeps the entry. -/
def keepBool (r : Except String Bool) : Bool :=
  match r with
  | .ok true => true
  | _ => false

/-- Helper: `keepBool` characterization. -/
theorem keepBool_eq_true_iff (r : Except String Bool) :
    keepBool r = true ↔ r = .ok true := by
  cases r with
  | error m => simp [keepBool]
  | ok b => cases b <;> simp [keepBool]

/-- Helper: a successful filter pass keeps, in order, exactly the entries
whose decision is `ok true`, and no entry's decision raised. -/
theorem fsbi_ok_spec (fromDt toDt : Int) :
    ∀ (entries out : List IndexEntry),
      filter_sessions_by_index entries fromDt toDt = .ok out →
      out = entries.filter (fun e => keepBool (entryTimeDecision e fromDt toDt)) ∧
      ∀ e ∈ entries, ∃ b, entryTimeDecision e fromDt toDt = .ok b := by
  intro entries
  induction entries with
  | nil =>
    intro out h
    unfold filter_sessions_by_index at h
    simp only [Except.ok.injEq] at h
    subst h
    exact ⟨rfl, by simp⟩
  | cons e rest ih =>
    intro out h
    unfold filter_sessions_by_index at h
    cases hdec : entryTimeDecision e fromDt toDt with
    | error msg =>
      rw [hdec] at h
      cases h
    | ok b =>
      rw [hdec] at h
      cases b with
      | false =>
        obtain ⟨h1, h2⟩ := ih out h
        refine ⟨?_, ?_⟩
        · rw [List.filter_cons_of_neg (by simp [keepBool, hdec])]
          exact h1
        · intro x hx
          rcases List.mem_cons.mp hx with rfl | hx2
          · exact ⟨false, hdec⟩
          · exact h2 x hx2
      | true =>
        cases hrest : filter_sessions_by_index rest fromDt toDt with
        | error m =>
          rw [hrest] at h
          cases h
        | ok out2 =>
          rw [hrest] at h
          have hx : Except.ok (e :: out2) = Except.ok out := h
          cases hx
          obtain ⟨h1, h2⟩ := ih out2 hrest
          refine ⟨?_, ?_⟩
          · rw [List.filter_cons_of_pos (by simp [keepBool, hdec])]
            rw [h1]
          · intro x hx
            rcases List.mem_cons.mp hx with rfl | hx2
            · exact ⟨true, hdec⟩
            · exact h2 x hx2

/-- Helper: an entry whose parsed `created` is strictly after the upper
bound is never appended. -/
theorem decision_created_after (e : IndexEntry) (fromDt toDt : Int) (d : PyDt)
    (hd : parse_timestamp e.created = some d) (hlt : toDt < d.micros) :
    entryTimeDecision e fromDt toDt ≠ .ok true := by
  unfold entryTimeDecision
  by_cases hs : e.isSidechain = true
  · rw [if_pos hs]
    simp
  · by_cases hm : e.isMeta = true
    · rw [if_neg hs, if_pos hm]
      simp
    · rw [if_neg hs, if_neg hm, hd]
      dsimp only
      unfold cmpAware
      by_cases ha : d.aware = true
      · rw [if_pos ha]
        dsimp only
        rw [decide_eq_true hlt]
        simp
      · rw [if_neg ha]
        simp

/-- Helper: an entry whose parsed `modified` is strictly before the lower
bound is never appended. -/
theorem decision_modified_before (e : IndexEntry) (fromDt toDt : Int) (d : PyDt)
    (hd : parse_timestamp e.modified = some d) (hlt : d.micros < fromDt) :
    entryTimeDecision e fromDt toDt ≠ .ok true := by
  have hmod : modifiedDecision e fromDt ≠ .ok true := by
    unfold modifiedDecision
    rw [hd]
    dsimp only
    unfold cmpAware
    by_cases ha : d.aware = true
    · rw [if_pos ha]
      dsimp only
      rw [decide_eq_true hlt]
      simp
    · rw [if_neg ha]
      simp
  unfold entryTimeDecision
  by_cases hs : e.isSidechain = true
  · rw [if_pos hs]
    simp
  · by_cases hm : e.isMeta = true
    · rw [if_neg hs, if_pos hm]
      simp
    · rw [if_neg hs, if_neg hm]
      cases hc : parse_timestamp e.created with
      | none => exact hmod
      | some cd =>
        dsimp only
        unfold cmpAware
        by_cases ha : cd.aware = true
        · rw [if_pos ha]
          dsimp only
          by_cases hcmp : toDt < cd.micros
          · rw [decide_eq_true hcmp]
            simp
          · rw [decide_eq_false hcmp]
            exact hmod
        · rw [if_neg ha]
          simp

/-- Helper: an unflagged entry whose known timestamps straddle the window
is appended (provided no comparison raised). -/
theorem decision_keep (e : IndexEntry) (fromDt toDt : Int)
    (hs : e.isSidechain = false) (hm : e.isMeta = false)
    (hc : ∀ d, parse_timestamp e.created = some d → d.micros ≤ toDt)
    (hmo : ∀ d, parse_timestamp e.modified = some d → fromDt ≤ d.micros)
    (hex : ∃ b, entryTimeDecision e fromDt toDt = .ok b) :
    entryTimeDecision e fromDt toDt = .ok true := by
  obtain ⟨b, hb⟩ := hex
  have hmod : ∀ b2, modifiedDecision e fromDt = .ok b2 →
      modifiedDecision e fromDt = .ok true := by
    intro b2 hb2
    cases hmd : parse_timestamp e.modified with
    | none =>
      unfold modifiedDecision
      rw [hmd]
    | some md =>
      unfold modifiedDecision at hb2 ⊢
      rw [hmd] at hb2 ⊢
      dsimp only at hb2 ⊢
      unfold cmpAware at hb2 ⊢
      by_cases ha : md.aware = true
      · rw [if_pos ha]
        dsimp only
        rw [decide_eq_false (not_lt.mpr (hmo md hmd))]
      · rw [if_neg ha] at hb2
        cases hb2
  cases hcd : parse_timestamp e.created with
  | none =>
    unfold entryTimeDecision at hb ⊢
    rw [if_neg (by simp [hs]), if_neg (by simp [hm])] at hb ⊢
    rw [hcd] at hb ⊢
    exact hmod b hb
  | some cd =>
    unfold entryTimeDecision at hb ⊢
    rw [if_neg (by simp [hs]), if_neg (by simp [hm])] at hb ⊢
    rw [hcd] at hb ⊢
    dsimp only at hb ⊢
    unfold cmpAware at hb ⊢
    by_cases ha : cd.aware = true
    · rw [if_pos ha] at hb ⊢
      dsimp only at hb ⊢
      rw [decide_eq_false (not_lt.mpr (hc cd hcd))] at hb ⊢
      exact hmod b hb
    · rw [if_neg ha] at hb
      cases hb

/-- C1: on a successful pass of the index time-range filter, an entry
whose parsed `created` is strictly after `to` is excluded, an entry whose
parsed `modified` is strictly before `from` is excluded, and an
unflagged entry whose known timestamps satisfy `created ≤ to` and
`modified ≥ from` — in particular one with no parseable timestamp at
all — is included. -/
theorem C1_time_range_filter (entries : List IndexEntry) (fromDt toDt : Int)
    (e : IndexEntry) (out : List IndexEntry)
    (hok : filter_sessions_by_index entries fromDt toDt = .ok out)
    (he : e ∈ entries) :
    (∀ d, parse_timestamp e.created = some d → toDt < d.micros → e ∉ out) ∧
    (∀ d, parse_timestamp e.modified = some d → d.micros < fromDt → e ∉ out) ∧
    (e.isSidechain = false → e.isMeta = false →
     (∀ d, parse_timestamp e.created = some d → d.micros ≤ toDt) →
     (∀ d, parse_timestamp e.modified = some d → fromDt ≤ d.micros) →
     e ∈ out) := by
  obtain ⟨hout, hall⟩ := fsbi_ok_spec fromDt toDt entries out hok
  subst hout
  refine ⟨?_, ?_, ?_⟩
  · intro d hd hlt hmem
    have hkeep := (List.mem_filter.mp hmem).2
    rw [keepBool_eq_true_iff] at hkeep
    exact decision_created_after e fromDt toDt d hd hlt hkeep
  · intro d hd hlt hmem
    have hkeep := (List.mem_filter.mp hmem).2
    rw [keepBool_eq_true_iff] at hkeep
    exact decision_modified_before e fromDt toDt d hd hlt hkeep
  · intro hs hm hc hmo
    refine List.mem_filter.mpr ⟨he, ?_⟩
    rw [keepBool_eq_true_iff]
    exact decision_keep e fromDt toDt hs hm hc hmo (hall e he)

/-- Witness for C1: with bounds 2026-02-20 .. 2026-02-21, an entry with
no parseable timestamps is kept and an entry created on 2026-02-22 is
dropped. -/
theorem C1_time_range_filter_witness :
    ({ sessionId := "good", created := "", modified := "", firstPrompt := "",
       summary := "", projectPath := "", fullPath := "", isSidechain := false,
       isMeta := false } : IndexEntry) ∈
      ([{ sessionId := "good", created := "", modified := "", firstPrompt := "",
          summary := "", projectPath := "", fullPath := "", isSidechain := false,
          isMeta := false }] : List IndexEntry) ∧
    ({ sessionId := "late", created := "2026-02-22T00:00:00Z", modified := "",
       firstPrompt := "", summary := "", projectPath := "", fullPath := "",
       isSidechain := false, isMeta := false } : IndexEntry) ∉
      ([{ sessionId := "good", created := "", modified := "", firstPrompt := "",
          summary := "", projectPath := "", fullPath := "", isSidechain := false,
          isMeta := false }] : List IndexEntry) := by
  constructor
  · refine (C1_time_range_filter
      [{ sessionId := "good", created := "", modified := "", firstPrompt := "",
         summary := "", projectPath := "", fullPath := "", isSidechain := false,
         isMeta := false },
       { sessionId := "late", created := "2026-02-22T00:00:00Z", modified := "",
         firstPrompt := "", summary := "", projectPath := "", fullPath := "",
         isSidechain := false, isMeta := false }]
      1771545600000000 1771632000000000 _ _ (by rfl) (by decide)).2.2
      rfl rfl ?_ ?_
    · intro d hd
      simp [parse_timestamp] at hd
    · intro d hd
      simp [parse_timestamp] at hd
  · exact (C1_time_range_filter
      [{ sessionId := "good", created := "", modified := "", firstPrompt := "",
         summary := "", projectPath := "", fullPath := "", isSidechain := false,
         isMeta := false },
       { sessionId := "late", created := "2026-02-22T00:00:00Z", modified := "",
         firstPrompt := "", summary := "", projectPath := "", fullPath := "",
         isSidechain := false, isMeta := false }]
      1771545600000000 1771632000000000 _ _ (by rfl) (by decide)).1
      { micros := 1771718400000000, aware := true } (by rfl) (by decide)

/-- Helper: an emitted record carries its index entry's session id. -/
theorem pjs_session_id (lines : List ClaudeRecord) (entry : IndexEntry)
    (pp : String) (rec : SessionRecord)
    (h : process_jsonl_session lines entry pp = some rec) :
    rec.session_id = entry.sessionId := by
  rcases pjs_shape lines entry pp with hs | hs
  · rw [h] at hs
    cases hs
  · rw [h] at hs
    cases Option.some.inj hs
    rfl

/-- Helper: a record produced by the per-entry loop body carries the
entry's session id. -/
theorem processEntry_session_id (files : String → Option (List ClaudeRecord))
    (pdir pp : String) (entry : IndexEntry) (rec : SessionRecord)
    (h : (processEntry files pdir pp entry).1 = some rec) :
    rec.session_id = entry.sessionId := by
  unfold processEntry at h
  by_cases hsid : entry.sessionId = ""
  · rw [if_pos hsid] at h
    cases h
  · rw [if_neg hsid] at h
    dsimp only at h
    cases hf : files (pdir ++ "/" ++ entry.sessionId ++ ".jsonl") with
    | some lines =>
      rw [hf] at h
      exact pjs_session_id _ _ _ _ h
    | none =>
      rw [hf] at h
      dsimp only at h
      by_cases hfp : entry.fullPath = ""
      · rw [if_pos hfp] at h
        cases h
      · rw [if_neg hfp] at h
        cases hf2 : files entry.fullPath with
        | some lines =>
          rw [hf2] at h
          exact pjs_session_id _ _ _ _ h
        | none =>
          rw [hf2] at h
          cases h

/-- Helper: every record emitted by the per-entry loop stems from one of
the matched entries. -/
theorem runEntries_source (files : String → Option (List ClaudeRecord))
    (pdir pp : String) :
    ∀ (entries : List IndexEntry) (rec : SessionRecord),
      rec ∈ (runEntries files pdir pp entries).1 →
      ∃ e ∈ entries, rec.session_id = e.sessionId := by
  intro entries
  induction entries with
  | nil =>
    intro rec hrec
    simp [runEntries] at hrec
  | cons e rest ih =>
    intro rec hrec
    unfold runEntries at hrec
    dsimp only at hrec
    cases hpe : (processEntry files pdir pp e).1 with
    | some x =>
      rw [hpe] at hrec
      rcases List.mem_cons.mp hrec with rfl | hx2
      · exact ⟨e, List.mem_cons_self _ _, processEntry_session_id files pdir pp e rec hpe⟩
      · obtain ⟨e2, he2, heq⟩ := ih rec hx2
        exact ⟨e2, List.mem_cons_of_mem _ he2, heq⟩
    | none =>
      rw [hpe] at hrec
      obtain ⟨e2, he2, heq⟩ := ih rec hrec
      exact ⟨e2, List.mem_cons_of_mem _ he2, heq⟩

/-- Helper: an appended entry is neither sidechain nor meta. -/
theorem decision_true_flags (e : IndexEntry) (fromDt toDt : Int)
    (h : entryTimeDecision e fromDt toDt = .ok true) :
    e.isSidechain = false ∧ e.isMeta = false := by
  unfold entryTimeDecision at h
  by_cases hs : e.isSidechain = true
  · rw [if_pos hs] at h
    cases h
  · by_cases hm : e.isMeta = true
    · rw [if_neg hs, if_pos hm] at h
      cases h
    · exact ⟨by simpa using hs, by simpa using hm⟩

/-- C8: in the index-backed claude adapter, if every index entry bearing a
given session id is flagged `isSidechain` or `isMeta`, then no record with
that session id is ever emitted for the project, whatever the time
range.  (Per the data model, session ids are unique within a locator
pass, so this covers every flagged entry's id.) -/
theorem C8_sidechain_meta_excluded (files : String → Option (List ClaudeRecord))
    (pdir pp : String) (entries : List IndexEntry) (fromDt toDt : Int)
    (e : IndexEntry) (he : e ∈ entries)
    (hflag : e.isSidechain = true ∨ e.isMeta = true)
    (huniq : ∀ e2 ∈ entries, e2.sessionId = e.sessionId → e2 = e)
    (out : List SessionRecord) (warns : List String)
    (hrun : runIndexProject files pdir pp entries fromDt toDt = .ok (out, warns)) :
    ∀ rec ∈ out, rec.session_id ≠ e.sessionId := by
  intro rec hrec heq
  unfold runIndexProject at hrun
  cases hflt : filter_sessions_by_index entries fromDt toDt with
  | error m =>
    rw [hflt] at hrun
    cases hrun
  | ok flt =>
    rw [hflt] at hrun
    have hx : Except.ok (runEntries files pdir pp flt) = Except.ok (out, warns) := hrun
    have hpair := Except.ok.inj hx
    have hout : out = (runEntries files pdir pp flt).1 := by
      rw [hpair]
    rw [hout] at hrec
    obtain ⟨e2, he2, hid⟩ := runEntries_source files pdir pp flt rec hrec
    obtain ⟨hfilter, _⟩ := fsbi_ok_spec fromDt toDt entries flt hflt
    rw [hfilter] at he2
    have hmem := List.mem_filter.mp he2
    have hkeep := (keepBool_eq_true_iff _).mp hmem.2
    have hflags := decision_true_flags e2 fromDt toDt hkeep
    have he2id : e2.sessionId = e.sessionId := by
      rw [← hid, heq]
    have := huniq e2 hmem.1 he2id
    subst this
    rcases hflag with hf | hf
    · rw [hflags.1] at hf
      cases hf
    · rw [hflags.2] at hf
      cases hf

/-- Witness for C8: in a project holding a sidechain entry `"sc"` and a
normal entry `"good"`, the one emitted record is for `"good"`, and the
theorem shows it cannot carry the sidechain id. -/
theorem C8_sidechain_meta_excluded_witness :
    ({ source := "claude-code", session_id := "good", project := "/p",
       title := "good", time_start := "", time_end := "",
       messages := [{ role := "user", content := "hi", timestamp := "",
                      tool_calls := none }],
       parent_id := none } : SessionRecord).session_id ≠ "sc" :=
  C8_sidechain_meta_excluded
    (fun p => if p = "/dir/good.jsonl"
      then some [{ rtype := "user", timestamp := "", content := .str "hi" }]
      else none)
    "/dir" "/p"
    [{ sessionId := "sc", created := "", modified := "", firstPrompt := "",
       summary := "", projectPath := "", fullPath := "", isSidechain := true,
       isMeta := false },
     { sessionId := "good", created := "", modified := "", firstPrompt := "",
       summary := "", projectPath := "", fullPath := "", isSidechain := false,
       isMeta := false }]
    0 0
    { sessionId := "sc", created := "", modified := "", firstPrompt := "",
      summary := "", projectPath := "", fullPath := "", isSidechain := true,
      isMeta := false }
    (List.mem_cons_self _ _) (Or.inl rfl) (by decide)
    [{ source := "claude-code", session_id := "good", project := "/p",
       title := "good", time_start := "", time_end := "",
       messages := [{ role := "user", content := "hi", timestamp := "",
                      tool_calls := none }],
       parent_id := none }] [] (by rfl)
    { source := "claude-code", session_id := "good", project := "/p",
      title := "good", time_start := "", time_end := "",
      messages := [{ role := "user", content := "hi", timestamp := "",
                     tool_calls := none }],
      parent_id := none }
    (List.mem_cons_self _ _)

/-- C10: a matched index entry whose session id is missing or empty is
skipped before any file access — no record, no warning — and the loop
over the remaining entries is unaffected. -/
theorem C10_empty_session_id_skipped (files : String → Option (List ClaudeRecord))
    (pdir pp : String) (entry : IndexEntry) (hsid : entry.sessionId = "") :
    processEntry files pdir pp entry = (none, []) ∧
    ∀ rest, runEntries files pdir pp (entry :: rest) =
      runEntries files pdir pp rest := by
  have hpe : processEntry files pdir pp entry = (none, []) := by
    unfold processEntry
    rw [if_pos hsid]
  refine ⟨hpe, ?_⟩
  intro rest
  unfold runEntries
  rw [hpe]
  simp
  cases rest <;> rfl

/-- Witness for C10 at a concrete empty-id entry. -/
theorem C10_empty_session_id_skipped_witness :
    processEntry (fun _ => none) "/dir" "/p"
      { sessionId := "", created := "", modified := "", firstPrompt := "",
        summary := "", projectPath := "", fullPath := "", isSidechain := false,
        isMeta := false } = (none, []) ∧
    runEntries (fun _ => none) "/dir" "/p"
      [{ sessionId := "", created := "", modified := "", firstPrompt := "",
         summary := "", projectPath := "", fullPath := "", isSidechain := false,
         isMeta := false }] = runEntries (fun _ => none) "/dir" "/p" [] :=
  ⟨(C10_empty_session_id_skipped (fun _ => none) "/dir" "/p" _ rfl).1,
   (C10_empty_session_id_skipped (fun _ => none) "/dir" "/p" _ rfl).2 []⟩

end Distiller
